import Mathlib

/-!
Verification of the OPAE FPGA DMA driver layer (rcreek plugin).

The repository provides the internal header `fpga_common_internal.h`
(constants, register bit-layouts, handle and queue structures) and the
public API header `dma.h` (operation declarations with documented
behaviour).  Constants and structure layouts are embedded directly from
the header; the bodies of the operations are not part of the visible
sources, so they are modelled from the specification, as marked on each
definition.
-/

namespace OpaeDma

/-! ## Constants from fpga_common_internal.h -/

/-- `#define FPGA_DMA_TIMEOUT_MSEC (120000)` (fpga_common_internal.h:77). -/
def FPGA_DMA_TIMEOUT_MSEC : Nat := 120000

/-- `#define DMA_ADDR_SPAN_EXT_WINDOW (4 * 1024)` (fpga_common_internal.h:116). -/
def DMA_ADDR_SPAN_EXT_WINDOW : Nat := 4 * 1024

/-- `#define FPGA_DMA_BUF_SIZE (uint32_t)(2 * 1024 * 1024)`
(fpga_common_internal.h:180): granularity of a single hardware descriptor. -/
def FPGA_DMA_BUF_SIZE : Nat := 2 * 1024 * 1024

/-- `#define FPGA_DMA_MAX_INFLIGHT_TRANSACTIONS 100000`
(fpga_common_internal.h:206): capacity of the circular request queue. -/
def FPGA_DMA_MAX_INFLIGHT_TRANSACTIONS : Nat := 100000

/-- `#define FPGA_DMA_MAX_SMALL_BUFFERS 4` (fpga_common_internal.h:354). -/
def FPGA_DMA_MAX_SMALL_BUFFERS : Nat := 4

/-- `#define FPGA_DMA_MAGIC_ID (0x9de448f7)` (fpga_common_internal.h:275). -/
def FPGA_DMA_MAGIC_ID : Nat := 0x9de448f7

/-- `#define FPGA_DMA_TX_CHANNEL_MAGIC_ID (0x48f749de)` (fpga_common_internal.h:276). -/
def FPGA_DMA_TX_CHANNEL_MAGIC_ID : Nat := 0x48f749de

/-- `#define FPGA_DMA_RX_CHANNEL_MAGIC_ID (0x44e9d8f7)` (fpga_common_internal.h:277). -/
def FPGA_DMA_RX_CHANNEL_MAGIC_ID : Nat := 0x44e9d8f7

/-- `#define FPGA_MSGDMA_MAGIC_ID (0xe8f7449d)` (fpga_common_internal.h:278). -/
def FPGA_MSGDMA_MAGIC_ID : Nat := 0xe8f7449d

/-- `IS_DMA_HANDLE` (fpga_common_internal.h:281): the handle's magic field
equals `FPGA_DMA_MAGIC_ID`.  The handle is represented by its 32-bit
`magic_id` field, the only field the macro consults. -/
def IS_DMA_HANDLE (magic_id : Nat) : Bool :=
  magic_id == FPGA_DMA_MAGIC_ID

/-- `IS_TX_CHANNEL_HANDLE` (fpga_common_internal.h:283). -/
def IS_TX_CHANNEL_HANDLE (magic_id : Nat) : Bool :=
  magic_id == FPGA_DMA_TX_CHANNEL_MAGIC_ID

/-- `IS_RX_CHANNEL_HANDLE` (fpga_common_internal.h:285). -/
def IS_RX_CHANNEL_HANDLE (magic_id : Nat) : Bool :=
  magic_id == FPGA_DMA_RX_CHANNEL_MAGIC_ID

/-- `IS_MSGDMA_HANDLE` (fpga_common_internal.h:279). -/
def IS_MSGDMA_HANDLE (magic_id : Nat) : Bool :=
  magic_id == FPGA_MSGDMA_MAGIC_ID

/-! ## Result codes and transfer attribute enumerations

`fpga_result` comes from the OPAE public headers; the DMA headers use
`FPGA_OK`, `FPGA_INVALID_PARAM`, `FPGA_NO_MEMORY`, `FPGA_NOT_SUPPORTED`
and a timeout code.  The transfer-type and control enumerations are
declared in `fpga_dma_types.h` / `dma_types.h`, which are not among the
visible sources; their constructors are modelled from the values listed
in the `dma.h` documentation. -/

inductive fpga_result where
  | FPGA_OK
  | FPGA_INVALID_PARAM
  | FPGA_BUSY
  | FPGA_EXCEPTION
  | FPGA_NOT_FOUND
  | FPGA_NO_MEMORY
  | FPGA_NOT_SUPPORTED
  | FPGA_NO_DRIVER
  | FPGA_TIMEOUT
deriving DecidableEq, Repr

export fpga_result (FPGA_OK FPGA_INVALID_PARAM FPGA_NO_MEMORY FPGA_NOT_SUPPORTED FPGA_TIMEOUT)

/-- Modelled from the spec: `fpga_dma_transfer_type_t` (declared in the
missing `fpga_dma_types.h`); the four values are listed in the
`fpgaDmaTransferSetTransferType` documentation (dma.h:285-291). -/
inductive fpga_dma_transfer_type_t where
  | HOST_MM_TO_FPGA_ST
  | FPGA_ST_TO_HOST_MM
  | FPGA_MM_TO_FPGA_ST
  | FPGA_ST_TO_FPGA_MM
deriving DecidableEq, Repr

export fpga_dma_transfer_type_t
  (HOST_MM_TO_FPGA_ST FPGA_ST_TO_HOST_MM FPGA_MM_TO_FPGA_ST FPGA_ST_TO_FPGA_MM)

/-- Modelled from the spec: `fpga_dma_tx_ctrl_t`; values listed in the
`fpgaDmaTransferSetTxControl` documentation (dma.h:314-319). -/
inductive fpga_dma_tx_ctrl_t where
  | TX_NO_PACKET
  | GENERATE_SOP
  | GENERATE_EOP
  | GENERATE_SOP_AND_EOP
deriving DecidableEq, Repr

export fpga_dma_tx_ctrl_t (TX_NO_PACKET GENERATE_SOP GENERATE_EOP GENERATE_SOP_AND_EOP)

/-- Modelled from the spec: `fpga_dma_rx_ctrl_t`; values listed in the
`fpgaDmaTransferSetRxControl` documentation (dma.h:344-347). -/
inductive fpga_dma_rx_ctrl_t where
  | RX_NO_PACKET
  | END_ON_EOP
deriving DecidableEq, Repr

export fpga_dma_rx_ctrl_t (RX_NO_PACKET END_ON_EOP)

/-- Modelled from the spec: `fpga_dma_channel_type_t` (TX streaming,
RX streaming, or memory-to-memory; spec §2, dma.h:189-190). -/
inductive fpga_dma_channel_type_t where
  | TX_ST
  | RX_ST
  | MM
deriving DecidableEq, Repr

/-! ## The transfer object

Scalar fields of `struct _fpga_dma_transfer` (fpga_common_internal.h:244-261).
Pointer-valued fields (semaphore/mutex pool items, callback, buffer list)
are not needed by the claims and are omitted; `eop_status` and `rx_bytes`
are the completion outputs. -/

structure fpga_dma_transfer_t where
  ch_type : fpga_dma_channel_type_t
  src : Nat
  dst : Nat
  len : Nat
  transfer_type : fpga_dma_transfer_type_t
  tx_ctrl : fpga_dma_tx_ctrl_t
  rx_ctrl : fpga_dma_rx_ctrl_t
  eop_status : Bool
  rx_bytes : Nat
deriving DecidableEq, Repr

/-! ## Register protocol model

Bit-layouts from fpga_common_internal.h.  Each C bitfield becomes a
`Bool` (1-bit fields) or a `Nat` (wider fields); the numeric fields of
the packed descriptor are the values stored in the corresponding
fixed-width slots, reduced by the slot's modulus where they are written. -/

/-- `msgdma_desc_ctrl_t` (fpga_common_internal.h:391-409): control word of
an extended descriptor.  Only the bits the claims speak about are listed
as named fields; the remaining interrupt-enable bits are grouped. -/
structure msgdma_desc_ctrl_t where
  tx_channel : Nat
  generate_sop : Bool
  generate_eop : Bool
  park_reads : Bool
  park_writes : Bool
  end_on_eop : Bool
  eop_rvcd_irq_en : Bool
  transfer_irq_en : Bool
  early_term_irq_en : Bool
  trans_error_irq_en : Nat
  early_done_en : Bool
  wait_for_wr_rsp : Bool
  go : Bool
deriving DecidableEq, Repr

/-- `msgdma_ext_desc_t` (fpga_common_internal.h:411-433): one extended
hardware descriptor.  `rd_address`/`wr_address` are the low 32 bits and
`rd_address_ext`/`wr_address_ext` the high 32 bits of the 64-bit
addresses; `seq_num` is a 16-bit slot; `len` is a 32-bit slot. -/
structure msgdma_ext_desc_t where
  rd_address : Nat
  wr_address : Nat
  len : Nat
  seq_num : Nat
  rd_burst_count : Nat
  wr_burst_count : Nat
  rd_stride : Nat
  wr_stride : Nat
  rd_address_ext : Nat
  wr_address_ext : Nat
  control : msgdma_desc_ctrl_t
deriving DecidableEq, Repr

/-- `msgdma_rsp_status_t` (fpga_common_internal.h:507-518): status word of
a response-FIFO entry. -/
structure msgdma_rsp_status_t where
  error : Nat
  early_termination : Bool
  eop_arrived : Bool
  err_irq_mask : Nat
  early_termination_irq_mask : Bool
  desc_buffer_full : Bool
deriving DecidableEq, Repr

/-- `msgdma_rsp_t` (fpga_common_internal.h:521-526): a response-FIFO
entry: actual bytes transferred plus the status word. -/
structure msgdma_rsp_t where
  actual_bytes_tf : Nat
  rsp_status : msgdma_rsp_status_t
deriving DecidableEq, Repr

/-! ## Descriptor splitting (spec §4.3)

The dispatcher bodies are not among the visible sources; the splitting
loop is modelled from the specification. -/

/-- Per-transfer splitting configuration: whether each address advances
(memory-mapped end) or stays fixed (streaming end), which SOP/EOP control
bits were requested, and the burst/stride values fixed by the engine
configuration (spec §4.3). -/
structure SplitCfg where
  srcAdvances : Bool
  dstAdvances : Bool
  sopRequested : Bool
  eopRequested : Bool
  endOnEopRequested : Bool
  rdBurst : Nat
  wrBurst : Nat
  rdStride : Nat
  wrStride : Nat
deriving DecidableEq, Repr

/-- Modelled from the spec: derive the splitting configuration from the
transfer's attributes.  A host-memory-mapped end advances by
`FPGA_DMA_BUF_SIZE` per descriptor, a streaming end does not (spec §4.3);
`generate_sop`/`generate_eop` are requested through `tx_ctrl` and
`end_on_eop` through `rx_ctrl` (dma.h:302-355). -/
def splitCfgOf (t : fpga_dma_transfer_t) (rdBurst wrBurst rdStride wrStride : Nat) : SplitCfg :=
  { srcAdvances :=
      match t.transfer_type with
      | HOST_MM_TO_FPGA_ST => true
      | FPGA_ST_TO_HOST_MM => false
      | FPGA_MM_TO_FPGA_ST => true
      | FPGA_ST_TO_FPGA_MM => false
    dstAdvances :=
      match t.transfer_type with
      | HOST_MM_TO_FPGA_ST => false
      | FPGA_ST_TO_HOST_MM => true
      | FPGA_MM_TO_FPGA_ST => false
      | FPGA_ST_TO_FPGA_MM => true
    sopRequested := t.tx_ctrl == GENERATE_SOP || t.tx_ctrl == GENERATE_SOP_AND_EOP
    eopRequested := t.tx_ctrl == GENERATE_EOP || t.tx_ctrl == GENERATE_SOP_AND_EOP
    endOnEopRequested := t.rx_ctrl == END_ON_EOP
    rdBurst := rdBurst
    wrBurst := wrBurst
    rdStride := rdStride
    wrStride := wrStride }

/-- Modelled from the spec: build one hardware descriptor.  Addresses are
stored split into their low and high 32-bit register slots, the sequence
number into its 16-bit slot, burst counts into 8-bit slots and strides
into 16-bit slots, matching `msgdma_ext_desc_t` (fpga_common_internal.h:411-433).
`generate_sop` is asserted only on the first descriptor when requested,
`generate_eop`/`end_on_eop` only on the last when requested, and `go`
commits the descriptor (spec §4.3). -/
def mkDesc (c : SplitCfg) (rdAddr wrAddr thisLen seq : Nat)
    (isFirst isLast : Bool) : msgdma_ext_desc_t :=
  { rd_address := rdAddr % 2 ^ 32
    wr_address := wrAddr % 2 ^ 32
    len := thisLen % 2 ^ 32
    seq_num := seq % 2 ^ 16
    rd_burst_count := c.rdBurst % 2 ^ 8
    wr_burst_count := c.wrBurst % 2 ^ 8
    rd_stride := c.rdStride % 2 ^ 16
    wr_stride := c.wrStride % 2 ^ 16
    rd_address_ext := rdAddr / 2 ^ 32 % 2 ^ 32
    wr_address_ext := wrAddr / 2 ^ 32 % 2 ^ 32
    control :=
      { tx_channel := 0
        generate_sop := c.sopRequested && isFirst
        generate_eop := c.eopRequested && isLast
        park_reads := false
        park_writes := false
        end_on_eop := c.endOnEopRequested && isLast
        eop_rvcd_irq_en := false
        transfer_irq_en := isLast
        early_term_irq_en := false
        trans_error_irq_en := 0
        early_done_en := false
        wait_for_wr_rsp := false
        go := true } }

/-- Modelled from the spec: the splitting loop (spec §4.3).  While bytes
remain, emit a descriptor of length `min remaining FPGA_DMA_BUF_SIZE`,
advance the memory-mapped addresses by `FPGA_DMA_BUF_SIZE`, increment the
sequence number, and recurse on the remaining length.  `fuel` is a
structural bound on the recursion; any `fuel ≥ remaining` yields the full
split because every step consumes at least one byte. -/
def doDmaSplitAux (c : SplitCfg) : Nat → Nat → Nat → Nat → Nat → Bool → List msgdma_ext_desc_t
  | 0, _, _, _, _, _ => []
  | fuel + 1, src, dst, remaining, seq, isFirst =>
    if remaining = 0 then []
    else
      mkDesc c src dst (min remaining FPGA_DMA_BUF_SIZE) seq isFirst
          (decide (remaining ≤ FPGA_DMA_BUF_SIZE)) ::
        doDmaSplitAux c fuel
          (if c.srcAdvances then src + FPGA_DMA_BUF_SIZE else src)
          (if c.dstAdvances then dst + FPGA_DMA_BUF_SIZE else dst)
          (remaining - min remaining FPGA_DMA_BUF_SIZE) (seq + 1) false

/-- Modelled from the spec: split one transfer into its descriptor list
(spec §4.3), starting from the transfer's source and destination
addresses with sequence number 0. -/
def doDmaSplit (c : SplitCfg) (t : fpga_dma_transfer_t) : List msgdma_ext_desc_t :=
  doDmaSplitAux c t.len t.src t.dst t.len 0 true

/-- Number of descriptors a transfer of length `L` needs:
`⌈L / FPGA_DMA_BUF_SIZE⌉` (spec §4.3). -/
def numDesc (L : Nat) : Nat :=
  (L + FPGA_DMA_BUF_SIZE - 1) / FPGA_DMA_BUF_SIZE

/-- Closed form of the descriptor `doDmaSplitAux` emits at position `i`
of the split: addresses advanced by `i` descriptor granules on the
memory-mapped ends, length `min (remaining - i*D) D`, sequence number
`seq + i`, SOP only at position 0, EOP/end-on-EOP only when at most one
granule is left.  Proved equal to the emitted descriptor below. -/
def descAt (c : SplitCfg) (src dst remaining seq : Nat) (isFirst : Bool)
    (i : Nat) : msgdma_ext_desc_t :=
  mkDesc c
    (if c.srcAdvances then src + i * FPGA_DMA_BUF_SIZE else src)
    (if c.dstAdvances then dst + i * FPGA_DMA_BUF_SIZE else dst)
    (min (remaining - i * FPGA_DMA_BUF_SIZE) FPGA_DMA_BUF_SIZE)
    (seq + i)
    (isFirst && decide (i = 0))
    (decide (remaining ≤ i * FPGA_DMA_BUF_SIZE + FPGA_DMA_BUF_SIZE))

/-! ## Channel request queue (fpga_common_internal.h:263-273, spec §4.2)

`qinfo_t` is a fixed-capacity circular buffer of pending transfer
references, with independent read and write cursors and `num_free`
counting free slots.  The queue operations are not among the visible
sources and are modelled from the specification: `submit` stores at the
write cursor and advances it; the single Completion Worker dequeues at
the read cursor and advances it.  Transfer references are represented by
`Nat` identifiers; empty slots hold `none`. -/

/-- Queue capacity, the size of the C array. -/
def QCAP : Nat := FPGA_DMA_MAX_INFLIGHT_TRANSACTIONS

/-- `struct qinfo` (fpga_common_internal.h:263-273): cursors, free count,
and the slot array (a function from slot index to contents).  The
semaphore and spinlock guard concurrent access and are not part of the
sequential state. -/
structure qinfo_t where
  read_index : Nat
  write_index : Nat
  num_free : Nat
  queue : Nat → Option Nat

/-- The empty queue: both cursors at 0, all slots free. -/
def qinit : qinfo_t :=
  { read_index := 0, write_index := 0, num_free := QCAP, queue := fun _ => none }

/-- Number of pending entries. -/
def qsize (q : qinfo_t) : Nat := QCAP - q.num_free

/-- Modelled from the spec: `submit` (spec §4.2).  With a free slot, the
transfer reference is written at the write cursor, the cursor advances
modulo the capacity, and the free count drops; with no free slot the
caller blocks, which the sequential model renders as the operation not
taking effect (`false` = not accepted into the queue yet). -/
def submitQ (q : qinfo_t) (v : Nat) : qinfo_t × Bool :=
  if q.num_free = 0 then (q, false)
  else
    ({ read_index := q.read_index
       write_index := (q.write_index + 1) % QCAP
       num_free := q.num_free - 1
       queue := fun j => if j = q.write_index then some v else q.queue j }, true)

/-- Modelled from the spec: the Completion Worker's dequeue (spec §4.2,
§4.5).  With a pending entry, the slot at the read cursor is read and
the cursor advances modulo the capacity; an empty queue yields nothing. -/
def dequeueQ (q : qinfo_t) : qinfo_t × Option Nat :=
  if qsize q = 0 then (q, none)
  else
    ({ read_index := (q.read_index + 1) % QCAP
       write_index := q.write_index
       num_free := q.num_free + 1
       queue := q.queue }, q.queue q.read_index)

/-- One queue operation: a producer submitting a transfer reference, or
the single Completion Worker dequeuing. -/
inductive QOp where
  | submit (v : Nat)
  | dequeue
deriving DecidableEq, Repr

/-- Run a sequence of queue operations.  Returns the final queue, the
list of transfer references accepted into the queue (in submission
order) and the list of dequeued references (in dequeue order, which is
the order the Completion Worker completes them in; spec §4.2, §4.5). -/
def runQ : qinfo_t → List QOp → qinfo_t × List Nat × List Nat
  | q, [] => (q, [], [])
  | q, QOp.submit v :: ops =>
    let s := submitQ q v
    let r := runQ s.1 ops
    (r.1, (if s.2 then [v] else []) ++ r.2.1, r.2.2)
  | q, QOp.dequeue :: ops =>
    let d := dequeueQ q
    let r := runQ d.1 ops
    (r.1, r.2.1, d.2.toList ++ r.2.2)

/-- The pending slots of the circular buffer read in cursor order:
`size` slots starting at cursor `read` (indices taken modulo the
capacity). -/
def qcontentAux (queue : Nat → Option Nat) : Nat → Nat → List (Option Nat)
  | _, 0 => []
  | read, size + 1 => queue (read % QCAP) :: qcontentAux queue (read + 1) size

/-- The pending entries of the queue, oldest first. -/
def qcontent (q : qinfo_t) : List (Option Nat) :=
  qcontentAux q.queue q.read_index (qsize q)

/-- Structural invariant of the circular queue plus the abstraction to
the pending list `pend`: the read cursor is in range, at most `QCAP`
entries are pending, the write cursor sits `qsize` slots past the read
cursor, and the slots from the read cursor hold exactly `pend`. -/
def QInv (q : qinfo_t) (pend : List Nat) : Prop :=
  q.read_index < QCAP ∧ q.num_free ≤ QCAP
    ∧ q.write_index = (q.read_index + qsize q) % QCAP
    ∧ qcontent q = pend.map some

/-! ## Address span extension (spec §4.4)

The MM-to-MM channel reaches host memory through a 4 KiB window
(`DMA_ADDR_SPAN_EXT_WINDOW`) selected by a control register; the handle
tracks the currently mapped page in `cur_ase_page`
(fpga_common_internal.h:380).  The dispatch loop is modelled from the
specification. -/

/-- The register-level events of MM-to-MM dispatch: writing a page's
high bits to the span-extender control register, or issuing a
descriptor for an address. -/
inductive AseEvent where
  | reprogram (page : Nat)
  | issue (addr : Nat)
deriving DecidableEq, Repr

/-- The 4 KiB page an address falls in. -/
def asePageOf (addr : Nat) : Nat := addr / DMA_ADDR_SPAN_EXT_WINDOW

/-- Modelled from the spec: issue a sequence of descriptor addresses
through the span extender (spec §4.4).  Before a descriptor whose
address falls in a page other than the currently mapped one, the new
page is written to the control register; when consecutive descriptors
share the mapped page, no reprogram is emitted.  `cur` is the currently
mapped page (`none` right after channel open, when no page is mapped). -/
def aseIssueAll : Option Nat → List Nat → List AseEvent
  | _, [] => []
  | cur, addr :: rest =>
    if cur = some (asePageOf addr) then
      AseEvent.issue addr :: aseIssueAll cur rest
    else
      AseEvent.reprogram (asePageOf addr) :: AseEvent.issue addr
        :: aseIssueAll (some (asePageOf addr)) rest

/-- Number of control-register reprogram events in a trace. -/
def reprogramCount (evs : List AseEvent) : Nat :=
  evs.countP fun e => match e with | AseEvent.reprogram _ => true | _ => false

/-- Number of page transitions in an address sequence: positions whose
page differs from the page mapped when they are reached (the first
address always counts when no page is mapped yet). -/
def pageTransitions : Option Nat → List Nat → Nat
  | _, [] => 0
  | cur, addr :: rest =>
    if cur = some (asePageOf addr) then pageTransitions cur rest
    else 1 + pageTransitions (some (asePageOf addr)) rest

/-- Trace safety check: replaying the events, every issued descriptor's
address lies in the page mapped at that moment (spec §4.4: a descriptor
must never be issued before the span extender addresses its page). -/
def aseTraceSafe : Option Nat → List AseEvent → Bool
  | _, [] => true
  | _, AseEvent.reprogram p :: rest => aseTraceSafe (some p) rest
  | cur, AseEvent.issue a :: rest =>
    (cur == some (asePageOf a)) && aseTraceSafe cur rest

/-! ## Bounded waits (spec §4.3, §5)

Waiting on a full descriptor FIFO and waiting for hardware completion
both poll at an interval and give up once the elapsed time would exceed
`FPGA_DMA_TIMEOUT_MSEC`.  The wait loops are not among the visible
sources and are modelled from the specification. -/

/-- Outcome of a bounded wait: the condition was observed after
`elapsed_msec` milliseconds, or the fixed ceiling expired. -/
inductive WaitResult where
  | completed (elapsed_msec : Nat)
  | timed_out
deriving DecidableEq, Repr

/-- Modelled from the spec: the polling loop.  Poll number `i` happens
at time `i * interval_msec`; `fuel` bounds the number of polls.  When
`ready` never holds within the allotted polls, the wait times out. -/
def pollLoopAux (ready : Nat → Bool) (interval_msec : Nat) : Nat → Nat → WaitResult
  | _, 0 => WaitResult.timed_out
  | i, fuel + 1 =>
    if ready i then WaitResult.completed (i * interval_msec)
    else pollLoopAux ready interval_msec (i + 1) fuel

/-- Modelled from the spec: a wait bounded by the fixed 120-second
ceiling (spec §5): polls happen at times `0, interval, 2*interval, …`
while the elapsed time stays within `FPGA_DMA_TIMEOUT_MSEC`. -/
def boundedWait (ready : Nat → Bool) (interval_msec : Nat) : WaitResult :=
  pollLoopAux ready interval_msec 0 (FPGA_DMA_TIMEOUT_MSEC / interval_msec + 1)

/-- Modelled from the spec: the wait for the descriptor FIFO to stop
being full (spec §4.3); `fifoFull i` is the status register's
buffer-full bit at poll `i`. -/
def descFifoFullWait (fifoFull : Nat → Bool) (interval_msec : Nat) : WaitResult :=
  boundedWait (fun i => !fifoFull i) interval_msec

/-- Modelled from the spec: the wait for hardware completion
(spec §4.5); `hwDone i` is the completion indication at poll `i`. -/
def hwCompletionWait (hwDone : Nat → Bool) (interval_msec : Nat) : WaitResult :=
  boundedWait hwDone interval_msec

/-- Modelled from the spec: the result attached to the transfer's
completion contract after a wait (spec §5, §7): success, or a `Timeout`
failure — never a silent hang. -/
def waitOutcome (w : WaitResult) : fpga_result :=
  match w with
  | WaitResult.completed _ => FPGA_OK
  | WaitResult.timed_out => FPGA_TIMEOUT

/-! ## Transfer attribute setters (dma.h:302-355, spec §4.6)

The setter bodies are not among the visible sources; they are modelled
from the `dma.h` documentation: TX control is valid only for
`HOST_MM_TO_FPGA_ST` and `FPGA_MM_TO_FPGA_ST` transfers, RX control only
for `FPGA_ST_TO_HOST_MM` and `FPGA_MM_TO_FPGA_ST` transfers; an
inapplicable attribute fails with `FPGA_INVALID_PARAM` and leaves the
transfer unchanged. -/

/-- Modelled from the spec: `fpgaDmaTransferSetTxControl` (dma.h:326). -/
def fpgaDmaTransferSetTxControl (t : fpga_dma_transfer_t) (tx_ctrl : fpga_dma_tx_ctrl_t) :
    fpga_result × fpga_dma_transfer_t :=
  if t.transfer_type = HOST_MM_TO_FPGA_ST ∨ t.transfer_type = FPGA_MM_TO_FPGA_ST then
    (FPGA_OK, { t with tx_ctrl := tx_ctrl })
  else
    (FPGA_INVALID_PARAM, t)

/-- Modelled from the spec: `fpgaDmaTransferSetRxControl` (dma.h:354). -/
def fpgaDmaTransferSetRxControl (t : fpga_dma_transfer_t) (rx_ctrl : fpga_dma_rx_ctrl_t) :
    fpga_result × fpga_dma_transfer_t :=
  if t.transfer_type = FPGA_ST_TO_HOST_MM ∨ t.transfer_type = FPGA_MM_TO_FPGA_ST then
    (FPGA_OK, { t with rx_ctrl := rx_ctrl })
  else
    (FPGA_INVALID_PARAM, t)

/-! ## Small-buffer allocation (dma.h:429-467, fpga_common_internal.h:354-355)

`fpgaDmaTransferInitSmall` allocates a pinned buffer of at most
`FPGA_DMA_BUF_SIZE` bytes; at most `FPGA_DMA_MAX_SMALL_BUFFERS` such
buffers may be live per engine (`num_smalls` in `fpga_dma_handle_t`).
The body is not among the visible sources and is modelled from the
`dma.h` documentation: a fifth concurrent allocation fails with
`FPGA_NO_MEMORY`. -/

/-- The engine-side small-buffer state: the live count (`num_smalls`,
fpga_common_internal.h:355) and the live allocations' sizes in
allocation order. -/
structure DmaEngineSmalls where
  num_smalls : Nat
  small_buffers : List Nat
deriving DecidableEq, Repr

/-- Modelled from the spec: `fpgaDmaTransferInitSmall` (dma.h:464).
With fewer than `FPGA_DMA_MAX_SMALL_BUFFERS` live small buffers, a
buffer of `min size FPGA_DMA_BUF_SIZE` bytes is allocated (the size is
capped at 2 MiB) and returned; at the bound the call fails with
`FPGA_NO_MEMORY`, allocating nothing and leaving the engine state
unchanged. -/
def fpgaDmaTransferInitSmall (e : DmaEngineSmalls) (size : Nat) :
    fpga_result × DmaEngineSmalls × Option Nat :=
  if FPGA_DMA_MAX_SMALL_BUFFERS ≤ e.num_smalls then
    (FPGA_NO_MEMORY, e, none)
  else
    (FPGA_OK,
     { num_smalls := e.num_smalls + 1
       small_buffers := e.small_buffers ++ [min size FPGA_DMA_BUF_SIZE] },
     some (min size FPGA_DMA_BUF_SIZE))

/-! ## Completion bookkeeping (spec §4.5) and status getters -/

/-- Modelled from the spec: the Completion Worker's `Completing` step
(spec §4.5): the actual bytes transferred and the EOP-arrived bit are
read from the response register (`msgdma_rsp_t`,
fpga_common_internal.h:521-526) and stored into the transfer's output
fields `rx_bytes` and `eop_status`. -/
def workerCompleteTransfer (t : fpga_dma_transfer_t) (rsp : msgdma_rsp_t) :
    fpga_dma_transfer_t :=
  { t with rx_bytes := rsp.actual_bytes_tf
           eop_status := rsp.rsp_status.eop_arrived }

/-- Modelled from the spec: `fpgaDmaTransferGetBytesTransferred`
(dma.h:396): reports the transfer's `rx_bytes` output field. -/
def fpgaDmaTransferGetBytesTransferred (t : fpga_dma_transfer_t) : fpga_result × Nat :=
  (FPGA_OK, t.rx_bytes)

/-- Modelled from the spec: `fpgaDmaTransferCheckEopArrived`
(dma.h:413): reports the transfer's `eop_status` output field. -/
def fpgaDmaTransferCheckEopArrived (t : fpga_dma_transfer_t) : fpga_result × Bool :=
  (FPGA_OK, t.eop_status)

/-! ## Concrete fixtures used to evaluate the development -/

/-- A 6 MiB host-to-stream transfer requesting SOP and EOP generation
(the end-to-end scenario of spec §8). -/
def xfer6MiB : fpga_dma_transfer_t :=
  { ch_type := fpga_dma_channel_type_t.TX_ST
    src := 4096
    dst := 0
    len := 6 * 1024 * 1024
    transfer_type := HOST_MM_TO_FPGA_ST
    tx_ctrl := GENERATE_SOP_AND_EOP
    rx_ctrl := RX_NO_PACKET
    eop_status := false
    rx_bytes := 0 }

/-- Splitting configuration of `xfer6MiB` with burst counts 4 and unit
strides. -/
def cfg6MiB : SplitCfg := splitCfgOf xfer6MiB 4 4 1 1

/-- A transfer long enough that its split needs `2^16 + 1` descriptors:
`FPGA_DMA_BUF_SIZE * 2^16 + 1` bytes. -/
def xferHuge : fpga_dma_transfer_t :=
  { ch_type := fpga_dma_channel_type_t.TX_ST
    src := 0
    dst := 0
    len := FPGA_DMA_BUF_SIZE * 65536 + 1
    transfer_type := HOST_MM_TO_FPGA_ST
    tx_ctrl := TX_NO_PACKET
    rx_ctrl := RX_NO_PACKET
    eop_status := false
    rx_bytes := 0 }

/-- Splitting configuration of `xferHuge`. -/
def cfgHuge : SplitCfg := splitCfgOf xferHuge 4 4 1 1

/-- An RX streaming transfer posting a 1 MiB buffer with
`END_ON_EOP`. -/
def xferRxSt : fpga_dma_transfer_t :=
  { ch_type := fpga_dma_channel_type_t.RX_ST
    src := 0
    dst := 8192
    len := 1024 * 1024
    transfer_type := FPGA_ST_TO_HOST_MM
    tx_ctrl := TX_NO_PACKET
    rx_ctrl := END_ON_EOP
    eop_status := false
    rx_bytes := 0 }

/-- A hardware response reporting a 3000-byte stream ended by EOP. -/
def rspShort : msgdma_rsp_t :=
  { actual_bytes_tf := 3000
    rsp_status :=
      { error := 0
        early_termination := false
        eop_arrived := true
        err_irq_mask := 0
        early_termination_irq_mask := false
        desc_buffer_full := false } }

/-- An engine with no live small buffers. -/
def engine0 : DmaEngineSmalls := { num_smalls := 0, small_buffers := [] }

/-- Engine state after one successful small-buffer allocation. -/
def engine1 : DmaEngineSmalls := (fpgaDmaTransferInitSmall engine0 2097152).2.1

/-- Engine state after two successful small-buffer allocations. -/
def engine2 : DmaEngineSmalls := (fpgaDmaTransferInitSmall engine1 4096).2.1

/-- Engine state after three successful small-buffer allocations. -/
def engine3 : DmaEngineSmalls := (fpgaDmaTransferInitSmall engine2 2097152).2.1

/-- Engine state after four successful small-buffer allocations: the
small-buffer bound is reached. -/
def engine4 : DmaEngineSmalls := (fpgaDmaTransferInitSmall engine3 65536).2.1

/-- A status oracle under which the descriptor FIFO never stops being
full. -/
def alwaysFull : Nat → Bool := fun _ => true

/-- A completion oracle under which the hardware never signals
completion. -/
def neverDone : Nat → Bool := fun _ => false

/-! ## Properties of descriptor splitting -/

theorem doDmaSplitAux_length (c : SplitCfg) :
    ∀ fuel src dst remaining seq isFirst, remaining ≤ fuel →
      (doDmaSplitAux c fuel src dst remaining seq isFirst).length = numDesc remaining := by
  intro fuel
  induction fuel with
  | zero =>
    intro src dst remaining seq isFirst hf
    have h0 : remaining = 0 := by omega
    subst h0
    simp [doDmaSplitAux, numDesc, FPGA_DMA_BUF_SIZE]
  | succ fuel ih =>
    intro src dst remaining seq isFirst hf
    by_cases h0 : remaining = 0
    · subst h0
      simp [doDmaSplitAux, numDesc, FPGA_DMA_BUF_SIZE]
    · rw [doDmaSplitAux, if_neg h0]
      simp only [List.length_cons]
      rw [ih _ _ _ _ _ (by simp only [FPGA_DMA_BUF_SIZE]; omega)]
      simp only [numDesc, FPGA_DMA_BUF_SIZE]
      omega

theorem doDmaSplitAux_sum (c : SplitCfg) :
    ∀ fuel src dst remaining seq isFirst, remaining ≤ fuel →
      ((doDmaSplitAux c fuel src dst remaining seq isFirst).map
          msgdma_ext_desc_t.len).sum = remaining := by
  intro fuel
  induction fuel with
  | zero =>
    intro src dst remaining seq isFirst hf
    have h0 : remaining = 0 := by omega
    subst h0
    simp [doDmaSplitAux]
  | succ fuel ih =>
    intro src dst remaining seq isFirst hf
    by_cases h0 : remaining = 0
    · subst h0
      simp [doDmaSplitAux]
    · rw [doDmaSplitAux, if_neg h0]
      simp only [List.map_cons, List.sum_cons, mkDesc]
      rw [ih _ _ _ _ _ (by simp only [FPGA_DMA_BUF_SIZE]; omega)]
      simp only [FPGA_DMA_BUF_SIZE]
      omega

theorem descAt_shift (c : SplitCfg) (src dst remaining seq : Nat) (isFirst : Bool)
    (i : Nat) :
    descAt c (if c.srcAdvances then src + FPGA_DMA_BUF_SIZE else src)
      (if c.dstAdvances then dst + FPGA_DMA_BUF_SIZE else dst)
      (remaining - FPGA_DMA_BUF_SIZE) (seq + 1) false i
      = descAt c src dst remaining seq isFirst (i + 1) := by
  unfold descAt
  have e3 : min (remaining - FPGA_DMA_BUF_SIZE - i * FPGA_DMA_BUF_SIZE) FPGA_DMA_BUF_SIZE
      = min (remaining - (i + 1) * FPGA_DMA_BUF_SIZE) FPGA_DMA_BUF_SIZE := by
    simp only [FPGA_DMA_BUF_SIZE]
    omega
  have e4 : seq + 1 + i = seq + (i + 1) := by omega
  have e5 : (false && decide (i = 0)) = (isFirst && decide (i + 1 = 0)) := by simp
  have e6 : decide (remaining - FPGA_DMA_BUF_SIZE ≤ i * FPGA_DMA_BUF_SIZE + FPGA_DMA_BUF_SIZE)
      = decide (remaining ≤ (i + 1) * FPGA_DMA_BUF_SIZE + FPGA_DMA_BUF_SIZE) := by
    rw [decide_eq_decide]
    simp only [FPGA_DMA_BUF_SIZE]
    omega
  rw [e3, e4, e5, e6]
  have eadd : ∀ x : Nat, x + FPGA_DMA_BUF_SIZE + i * FPGA_DMA_BUF_SIZE
      = x + (i + 1) * FPGA_DMA_BUF_SIZE := by
    intro x
    ring
  cases hs : c.srcAdvances <;> cases hd : c.dstAdvances <;> simp [hs, hd, eadd]

theorem doDmaSplitAux_get? (c : SplitCfg) :
    ∀ fuel remaining src dst seq isFirst i, remaining ≤ fuel → i < numDesc remaining →
      (doDmaSplitAux c fuel src dst remaining seq isFirst).get? i =
        some (descAt c src dst remaining seq isFirst i) := by
  intro fuel
  induction fuel with
  | zero =>
    intro remaining src dst seq isFirst i hf hi
    exfalso
    have h0 : remaining = 0 := by omega
    subst h0
    simp [numDesc, FPGA_DMA_BUF_SIZE] at hi
  | succ fuel ih =>
    intro remaining src dst seq isFirst i hf hi
    by_cases h0 : remaining = 0
    · exfalso
      subst h0
      simp [numDesc, FPGA_DMA_BUF_SIZE] at hi
    · rw [doDmaSplitAux, if_neg h0]
      cases i with
      | zero =>
        simp [descAt]
      | succ i =>
        simp only [List.get?_cons_succ]
        have hD : FPGA_DMA_BUF_SIZE < remaining := by
          by_contra hle
          push_neg at hle
          have h1 : numDesc remaining = 1 := by
            simp only [numDesc, FPGA_DMA_BUF_SIZE] at *
            omega
          omega
        have hmin : min remaining FPGA_DMA_BUF_SIZE = FPGA_DMA_BUF_SIZE := by omega
        rw [hmin]
        rw [ih (remaining - FPGA_DMA_BUF_SIZE) _ _ _ _ i
          (by simp only [FPGA_DMA_BUF_SIZE] at *; omega)
          (by simp only [numDesc, FPGA_DMA_BUF_SIZE] at *; omega)]
        rw [descAt_shift c src dst remaining seq isFirst i]

theorem doDmaSplit_length (c : SplitCfg) (t : fpga_dma_transfer_t) :
    (doDmaSplit c t).length = numDesc t.len :=
  doDmaSplitAux_length c t.len t.src t.dst t.len 0 true le_rfl

theorem doDmaSplit_get? (c : SplitCfg) (t : fpga_dma_transfer_t) (i : Nat)
    (hi : i < numDesc t.len) :
    (doDmaSplit c t).get? i = some (descAt c t.src t.dst t.len 0 true i) :=
  doDmaSplitAux_get? c t.len t.len t.src t.dst 0 true i le_rfl hi

theorem doDmaSplit_get?_lt (c : SplitCfg) (t : fpga_dma_transfer_t) (i : Nat)
    (d : msgdma_ext_desc_t) (hd : (doDmaSplit c t).get? i = some d) :
    i < numDesc t.len := by
  obtain ⟨hlt, -⟩ := List.get?_eq_some.mp hd
  rwa [doDmaSplit_length] at hlt

/-- C1: for every transfer of length `L > 0`, the split emits exactly
`⌈L / FPGA_DMA_BUF_SIZE⌉` descriptors, each descriptor's length field is
`min (remaining, FPGA_DMA_BUF_SIZE)` for the bytes remaining at its
position, and the per-descriptor lengths sum to exactly `L`. -/
theorem C1_split_count_and_lengths (c : SplitCfg) (t : fpga_dma_transfer_t)
    (h : 0 < t.len) :
    (doDmaSplit c t).length = (t.len + FPGA_DMA_BUF_SIZE - 1) / FPGA_DMA_BUF_SIZE
    ∧ ((doDmaSplit c t).map msgdma_ext_desc_t.len).sum = t.len
    ∧ ∀ i d, (doDmaSplit c t).get? i = some d →
        d.len = min (t.len - i * FPGA_DMA_BUF_SIZE) FPGA_DMA_BUF_SIZE := by
  refine ⟨doDmaSplit_length c t, doDmaSplitAux_sum c t.len t.src t.dst t.len 0 true le_rfl, ?_⟩
  intro i d hd
  have hi := doDmaSplit_get?_lt c t i d hd
  rw [doDmaSplit_get? c t i hi] at hd
  obtain rfl := Option.some.inj hd
  simp only [descAt, mkDesc]
  simp only [FPGA_DMA_BUF_SIZE]
  omega

/-- C1 witness: the 6 MiB transfer splits into `⌈6 MiB / 2 MiB⌉ = 3`
descriptors whose lengths sum to 6 MiB. -/
theorem C1_witness :
    0 < xfer6MiB.len
    ∧ ((doDmaSplit cfg6MiB xfer6MiB).length
          = (xfer6MiB.len + FPGA_DMA_BUF_SIZE - 1) / FPGA_DMA_BUF_SIZE
        ∧ ((doDmaSplit cfg6MiB xfer6MiB).map msgdma_ext_desc_t.len).sum = xfer6MiB.len
        ∧ ∀ i d, (doDmaSplit cfg6MiB xfer6MiB).get? i = some d →
            d.len = min (xfer6MiB.len - i * FPGA_DMA_BUF_SIZE) FPGA_DMA_BUF_SIZE) :=
  ⟨by decide, C1_split_count_and_lengths cfg6MiB xfer6MiB (by decide)⟩

/-- C2: in every split of a transfer of positive length, when SOP
generation is requested `generate_sop` is asserted exactly on the first
descriptor, and when EOP generation / end-on-EOP is requested
`generate_eop` / `end_on_eop` are asserted exactly on the last
descriptor. -/
theorem C2_sop_eop_exactly_first_last (c : SplitCfg) (t : fpga_dma_transfer_t)
    (h : 0 < t.len) :
    ∀ i d, (doDmaSplit c t).get? i = some d →
      (c.sopRequested = true → (d.control.generate_sop = true ↔ i = 0))
      ∧ (c.eopRequested = true →
          (d.control.generate_eop = true ↔ i = numDesc t.len - 1))
      ∧ (c.endOnEopRequested = true →
          (d.control.end_on_eop = true ↔ i = numDesc t.len - 1)) := by
  intro i d hd
  have hi := doDmaSplit_get?_lt c t i d hd
  rw [doDmaSplit_get? c t i hi] at hd
  obtain rfl := Option.some.inj hd
  refine ⟨?_, ?_, ?_⟩
  · intro hsop
    simp [descAt, mkDesc, hsop]
  · intro heop
    simp only [descAt, mkDesc, heop, Bool.true_and, decide_eq_true_eq]
    simp only [numDesc, FPGA_DMA_BUF_SIZE] at *
    omega
  · intro hend
    simp only [descAt, mkDesc, hend, Bool.true_and, decide_eq_true_eq]
    simp only [numDesc, FPGA_DMA_BUF_SIZE] at *
    omega

/-- C2 witness: the 6 MiB SOP-and-EOP transfer (3 descriptors) has SOP
exactly on descriptor 0 and EOP exactly on descriptor 2. -/
theorem C2_witness :
    0 < xfer6MiB.len
    ∧ ∀ i d, (doDmaSplit cfg6MiB xfer6MiB).get? i = some d →
        (cfg6MiB.sopRequested = true → (d.control.generate_sop = true ↔ i = 0))
        ∧ (cfg6MiB.eopRequested = true →
            (d.control.generate_eop = true ↔ i = numDesc xfer6MiB.len - 1))
        ∧ (cfg6MiB.endOnEopRequested = true →
            (d.control.end_on_eop = true ↔ i = numDesc xfer6MiB.len - 1)) :=
  ⟨by decide, C2_sop_eop_exactly_first_last cfg6MiB xfer6MiB (by decide)⟩

/-- C9 counterexample: the descriptor's sequence-number slot is 16 bits
(`uint16_t seq_num`, fpga_common_internal.h:420), so for the transfer of
`FPGA_DMA_BUF_SIZE * 65536 + 1` bytes — split into `65537` descriptors —
descriptor 65536 carries sequence number `0` while descriptor 65535
carries `65535`: the sequence numbers are not strictly increasing across
the whole emitted sequence. -/
theorem C9_counterexample :
    ¬ (∀ i d d', (doDmaSplit cfgHuge xferHuge).get? i = some d →
        (doDmaSplit cfgHuge xferHuge).get? (i + 1) = some d' →
        d.seq_num < d'.seq_num) := by
  intro hmono
  have hb1 : (65535 : Nat) < numDesc xferHuge.len := by decide
  have hb2 : (65536 : Nat) < numDesc xferHuge.len := by decide
  have h1 := doDmaSplit_get? cfgHuge xferHuge 65535 hb1
  have h2 := doDmaSplit_get? cfgHuge xferHuge 65536 hb2
  have hlt := hmono 65535 _ _ h1 h2
  simp only [descAt, mkDesc] at hlt
  omega

/-- C9 (amended): within any split that needs at most `2^16` descriptors
(transfer length at most `FPGA_DMA_BUF_SIZE * 2^16` bytes), the 16-bit
sequence numbers are strictly increasing from descriptor to descriptor;
beyond that count the 16-bit field wraps. -/
theorem C9_seq_monotonic_bounded (c : SplitCfg) (t : fpga_dma_transfer_t)
    (h : 0 < t.len) (hn : numDesc t.len ≤ 65536) :
    ∀ i d d', (doDmaSplit c t).get? i = some d →
      (doDmaSplit c t).get? (i + 1) = some d' → d.seq_num < d'.seq_num := by
  intro i d d' hd hd'
  have hi := doDmaSplit_get?_lt c t i d hd
  have hi' := doDmaSplit_get?_lt c t (i + 1) d' hd'
  rw [doDmaSplit_get? c t i hi] at hd
  rw [doDmaSplit_get? c t (i + 1) hi'] at hd'
  obtain rfl := Option.some.inj hd
  obtain rfl := Option.some.inj hd'
  simp only [descAt, mkDesc]
  omega

/-! ## Span extender, setters, small buffers, waits, completion, magic ids -/

/-- C4: issuing any descriptor-address sequence through the span
extender reprograms the control register exactly once per page
transition (never once per descriptor when consecutive descriptors
share a page), no descriptor is ever issued while a page other than its
own is mapped, and the spec's example sequence `[0, 4096, 8192]` causes
exactly 3 reprogram events while `[0, 64, 4096, 4160, 8192]` — five
descriptors on three pages — also causes exactly 3. -/
theorem C4_span_extender_reprogramming :
    (∀ (cur : Option Nat) (addrs : List Nat),
      reprogramCount (aseIssueAll cur addrs) = pageTransitions cur addrs
      ∧ aseTraceSafe cur (aseIssueAll cur addrs) = true)
    ∧ reprogramCount (aseIssueAll none [0, 4096, 8192]) = 3
    ∧ reprogramCount (aseIssueAll none [0, 64, 4096, 4160, 8192]) = 3 := by
  refine ⟨?_, by decide, by decide⟩
  intro cur addrs
  induction addrs generalizing cur with
  | nil => simp [aseIssueAll, reprogramCount, pageTransitions, aseTraceSafe]
  | cons a rest ih =>
    by_cases h : cur = some (asePageOf a)
    · subst h
      refine ⟨?_, ?_⟩
      · simpa [aseIssueAll, reprogramCount, pageTransitions]
          using (ih (some (asePageOf a))).1
      · simpa [aseIssueAll, aseTraceSafe] using (ih (some (asePageOf a))).2
    · refine ⟨?_, ?_⟩
      · have h1 := (ih (some (asePageOf a))).1
        simp only [aseIssueAll, if_neg h, reprogramCount, pageTransitions,
          List.countP_cons] at *
        simp at *
        omega
      · simp [aseIssueAll, h, aseTraceSafe, (ih (some (asePageOf a))).2]

/-- C5: setting RX control on a `HOST_MM_TO_FPGA_ST` transfer and
setting TX control on a `FPGA_ST_TO_HOST_MM` transfer both fail with
`FPGA_INVALID_PARAM` and leave the transfer unchanged. -/
theorem C5_inapplicable_control_rejected (t u : fpga_dma_transfer_t)
    (txc : fpga_dma_tx_ctrl_t) (rxc : fpga_dma_rx_ctrl_t)
    (ht : t.transfer_type = HOST_MM_TO_FPGA_ST)
    (hu : u.transfer_type = FPGA_ST_TO_HOST_MM) :
    fpgaDmaTransferSetRxControl t rxc = (FPGA_INVALID_PARAM, t)
    ∧ fpgaDmaTransferSetTxControl u txc = (FPGA_INVALID_PARAM, u) := by
  constructor
  · simp [fpgaDmaTransferSetRxControl, ht]
  · simp [fpgaDmaTransferSetTxControl, hu]

/-- C5 witness: the fixtures `xfer6MiB` (host-to-stream) and `xferRxSt`
(stream-to-host) are rejected by the inapplicable setter, unchanged. -/
theorem C5_witness :
    (xfer6MiB.transfer_type = HOST_MM_TO_FPGA_ST
      ∧ xferRxSt.transfer_type = FPGA_ST_TO_HOST_MM)
    ∧ (fpgaDmaTransferSetRxControl xfer6MiB END_ON_EOP = (FPGA_INVALID_PARAM, xfer6MiB)
      ∧ fpgaDmaTransferSetTxControl xferRxSt GENERATE_SOP = (FPGA_INVALID_PARAM, xferRxSt)) :=
  ⟨⟨by decide, by decide⟩,
   C5_inapplicable_control_rejected xfer6MiB xferRxSt GENERATE_SOP END_ON_EOP
     (by decide) (by decide)⟩

/-- C6: below the `FPGA_DMA_MAX_SMALL_BUFFERS` bound,
`fpgaDmaTransferInitSmall` succeeds, allocates at most
`FPGA_DMA_BUF_SIZE` bytes and appends the allocation while preserving
the existing ones; at the bound it fails with `FPGA_NO_MEMORY` and
leaves the engine state — all existing allocations — unchanged. -/
theorem C6_small_buffer_bound (e : DmaEngineSmalls) (size : Nat) :
    (e.num_smalls < FPGA_DMA_MAX_SMALL_BUFFERS →
      fpgaDmaTransferInitSmall e size
        = (FPGA_OK,
           { num_smalls := e.num_smalls + 1
             small_buffers := e.small_buffers ++ [min size FPGA_DMA_BUF_SIZE] },
           some (min size FPGA_DMA_BUF_SIZE))
      ∧ min size FPGA_DMA_BUF_SIZE ≤ FPGA_DMA_BUF_SIZE)
    ∧ (FPGA_DMA_MAX_SMALL_BUFFERS ≤ e.num_smalls →
      fpgaDmaTransferInitSmall e size = (FPGA_NO_MEMORY, e, none)) := by
  constructor
  · intro hlt
    constructor
    · rw [fpgaDmaTransferInitSmall, if_neg (by omega)]
    · exact min_le_right _ _
  · intro hge
    rw [fpgaDmaTransferInitSmall, if_pos hge]

/-- C6 witness: after four successful allocations (`engine4`, built by
four `fpgaDmaTransferInitSmall` calls from the empty engine), a fifth
call fails with `FPGA_NO_MEMORY` and leaves the engine — hence the four
live allocations — unchanged. -/
theorem C6_witness :
    (engine4.num_smalls = FPGA_DMA_MAX_SMALL_BUFFERS
      ∧ engine4.small_buffers = [2097152, 4096, 2097152, 65536])
    ∧ fpgaDmaTransferInitSmall engine4 2097152 = (FPGA_NO_MEMORY, engine4, none) :=
  ⟨⟨by decide, by decide⟩,
   (C6_small_buffer_bound engine4 2097152).2 (by decide)⟩

theorem pollLoopAux_completed_le (ready : Nat → Bool) (interval : Nat) :
    ∀ fuel i t, pollLoopAux ready interval i fuel = WaitResult.completed t →
      t ≤ (i + fuel - 1) * interval := by
  intro fuel
  induction fuel with
  | zero =>
    intro i t h
    simp [pollLoopAux] at h
  | succ fuel ih =>
    intro i t h
    rw [pollLoopAux] at h
    by_cases hr : ready i
    · rw [if_pos hr] at h
      obtain rfl : i * interval = t := by injection h
      exact Nat.mul_le_mul_right _ (by omega)
    · rw [if_neg hr] at h
      have hb := ih (i + 1) t h
      have harith : i + 1 + fuel - 1 = i + (fuel + 1) - 1 := by omega
      rwa [harith] at hb

theorem pollLoopAux_never_ready (ready : Nat → Bool) (interval : Nat)
    (hnever : ∀ i, ready i = false) :
    ∀ fuel i, pollLoopAux ready interval i fuel = WaitResult.timed_out := by
  intro fuel
  induction fuel with
  | zero => intro i; rw [pollLoopAux]
  | succ fuel ih =>
    intro i
    rw [pollLoopAux, if_neg (by simp [hnever]), ih]

theorem boundedWait_le_ceiling (ready : Nat → Bool) (interval : Nat) :
    (∃ tms, tms ≤ FPGA_DMA_TIMEOUT_MSEC
        ∧ boundedWait ready interval = WaitResult.completed tms)
    ∨ boundedWait ready interval = WaitResult.timed_out := by
  cases hw : boundedWait ready interval with
  | completed tms =>
    left
    refine ⟨tms, ?_, rfl⟩
    have hb := pollLoopAux_completed_le ready interval
      (FPGA_DMA_TIMEOUT_MSEC / interval + 1) 0 tms hw
    have harith : 0 + (FPGA_DMA_TIMEOUT_MSEC / interval + 1) - 1
        = FPGA_DMA_TIMEOUT_MSEC / interval := by simp
    rw [harith] at hb
    exact le_trans hb (Nat.div_mul_le_self _ _)
  | timed_out => right; rfl

/-- C7: every descriptor-FIFO-full wait and every hardware-completion
wait either observes its condition within the fixed
`FPGA_DMA_TIMEOUT_MSEC = 120000` ms ceiling or ends in the `Timeout`
failure delivered as the wait's outcome; in particular a FIFO that
never drains, or hardware that never completes, yields `FPGA_TIMEOUT`,
never a silent hang. -/
theorem C7_waits_bounded_by_timeout (interval : Nat)
    (fifoFull hwDone : Nat → Bool) :
    ((∃ tms, tms ≤ FPGA_DMA_TIMEOUT_MSEC
        ∧ descFifoFullWait fifoFull interval = WaitResult.completed tms)
      ∨ waitOutcome (descFifoFullWait fifoFull interval) = FPGA_TIMEOUT)
    ∧ ((∀ i, fifoFull i = true) →
        waitOutcome (descFifoFullWait fifoFull interval) = FPGA_TIMEOUT)
    ∧ ((∃ tms, tms ≤ FPGA_DMA_TIMEOUT_MSEC
        ∧ hwCompletionWait hwDone interval = WaitResult.completed tms)
      ∨ waitOutcome (hwCompletionWait hwDone interval) = FPGA_TIMEOUT)
    ∧ ((∀ i, hwDone i = false) →
        waitOutcome (hwCompletionWait hwDone interval) = FPGA_TIMEOUT) := by
  refine ⟨?_, ?_, ?_, ?_⟩
  · rcases boundedWait_le_ceiling (fun i => !fifoFull i) interval with h | h
    · exact Or.inl h
    · right
      rw [descFifoFullWait, h]
      rfl
  · intro hfull
    rw [descFifoFullWait, boundedWait,
      pollLoopAux_never_ready _ interval (by simp [hfull]) _ 0]
    rfl
  · rcases boundedWait_le_ceiling hwDone interval with h | h
    · exact Or.inl h
    · right
      rw [hwCompletionWait, h]
      rfl
  · intro hnever
    rw [hwCompletionWait, boundedWait,
      pollLoopAux_never_ready _ interval hnever _ 0]
    rfl

/-- C7 witness: with a 1 ms poll interval, a FIFO that stays full
forever and hardware that never completes both end in `FPGA_TIMEOUT`. -/
theorem C7_witness :
    waitOutcome (descFifoFullWait alwaysFull 1) = FPGA_TIMEOUT
    ∧ waitOutcome (hwCompletionWait neverDone 1) = FPGA_TIMEOUT :=
  ⟨(C7_waits_bounded_by_timeout 1 alwaysFull neverDone).2.1 (fun _ => rfl),
   (C7_waits_bounded_by_timeout 1 alwaysFull neverDone).2.2.2 (fun _ => rfl)⟩

/-- C8: after the Completion Worker's completing step for an
`END_ON_EOP` RX transfer whose stream (as reported by the response
register) is shorter than the posted buffer,
`fpgaDmaTransferGetBytesTransferred` reports the actual (shorter) byte
count — not the requested buffer size — and
`fpgaDmaTransferCheckEopArrived` reports `true`. -/
theorem C8_end_on_eop_reports_actual_bytes (t : fpga_dma_transfer_t)
    (rsp : msgdma_rsp_t) (hrx : t.rx_ctrl = END_ON_EOP)
    (heop : rsp.rsp_status.eop_arrived = true)
    (hshort : rsp.actual_bytes_tf < t.len) :
    (fpgaDmaTransferGetBytesTransferred (workerCompleteTransfer t rsp)).2
        = rsp.actual_bytes_tf
    ∧ (fpgaDmaTransferGetBytesTransferred (workerCompleteTransfer t rsp)).2 < t.len
    ∧ (fpgaDmaTransferCheckEopArrived (workerCompleteTransfer t rsp)).2 = true := by
  refine ⟨rfl, hshort, ?_⟩
  simp [fpgaDmaTransferCheckEopArrived, workerCompleteTransfer, heop]

/-- C8 witness: completing the 1 MiB `END_ON_EOP` RX transfer with a
response reporting 3000 bytes and EOP yields 3000 reported bytes and
`eop_arrived = true`. -/
theorem C8_witness :
    (xferRxSt.rx_ctrl = END_ON_EOP
      ∧ rspShort.rsp_status.eop_arrived = true
      ∧ rspShort.actual_bytes_tf < xferRxSt.len)
    ∧ ((fpgaDmaTransferGetBytesTransferred (workerCompleteTransfer xferRxSt rspShort)).2
          = rspShort.actual_bytes_tf
      ∧ (fpgaDmaTransferGetBytesTransferred (workerCompleteTransfer xferRxSt rspShort)).2
          < xferRxSt.len
      ∧ (fpgaDmaTransferCheckEopArrived (workerCompleteTransfer xferRxSt rspShort)).2
          = true) :=
  ⟨⟨by decide, by decide, by decide⟩,
   C8_end_on_eop_reports_actual_bytes xferRxSt rspShort (by decide) (by decide) (by decide)⟩

theorem magic_pair_exclusive (a b : Nat) (hab : a ≠ b) (m : Nat) :
    ((m == a) && (m == b)) = false := by
  rcases eq_or_ne m a with rfl | h
  · have hb : (m == b) = false := beq_eq_false_iff_ne.mpr hab
    simp [hb]
  · have ha : (m == a) = false := beq_eq_false_iff_ne.mpr h
    simp [ha]

/-- C10: the four handle magic identifiers are pairwise distinct, so
the handle-type predicates `IS_DMA_HANDLE`, `IS_TX_CHANNEL_HANDLE`,
`IS_RX_CHANNEL_HANDLE` and `IS_MSGDMA_HANDLE` are mutually exclusive on
every magic value: no handle can be classified as two kinds. -/
theorem C10_magic_ids_distinct_and_exclusive :
    ((FPGA_DMA_MAGIC_ID == FPGA_DMA_TX_CHANNEL_MAGIC_ID) = false
      ∧ (FPGA_DMA_MAGIC_ID == FPGA_DMA_RX_CHANNEL_MAGIC_ID) = false
      ∧ (FPGA_DMA_MAGIC_ID == FPGA_MSGDMA_MAGIC_ID) = false
      ∧ (FPGA_DMA_TX_CHANNEL_MAGIC_ID == FPGA_DMA_RX_CHANNEL_MAGIC_ID) = false
      ∧ (FPGA_DMA_TX_CHANNEL_MAGIC_ID == FPGA_MSGDMA_MAGIC_ID) = false
      ∧ (FPGA_DMA_RX_CHANNEL_MAGIC_ID == FPGA_MSGDMA_MAGIC_ID) = false)
    ∧ ∀ m : Nat,
        (IS_DMA_HANDLE m && IS_TX_CHANNEL_HANDLE m) = false
        ∧ (IS_DMA_HANDLE m && IS_RX_CHANNEL_HANDLE m) = false
        ∧ (IS_DMA_HANDLE m && IS_MSGDMA_HANDLE m) = false
        ∧ (IS_TX_CHANNEL_HANDLE m && IS_RX_CHANNEL_HANDLE m) = false
        ∧ (IS_TX_CHANNEL_HANDLE m && IS_MSGDMA_HANDLE m) = false
        ∧ (IS_RX_CHANNEL_HANDLE m && IS_MSGDMA_HANDLE m) = false := by
  refine ⟨by decide, ?_⟩
  intro m
  simp only [IS_DMA_HANDLE, IS_TX_CHANNEL_HANDLE, IS_RX_CHANNEL_HANDLE, IS_MSGDMA_HANDLE]
  exact ⟨magic_pair_exclusive _ _ (by decide) m, magic_pair_exclusive _ _ (by decide) m,
    magic_pair_exclusive _ _ (by decide) m, magic_pair_exclusive _ _ (by decide) m,
    magic_pair_exclusive _ _ (by decide) m, magic_pair_exclusive _ _ (by decide) m⟩

/-! ## FIFO property of the request queue -/

theorem qcontentAux_length (queue : Nat → Option Nat) :
    ∀ size read, (qcontentAux queue read size).length = size := by
  intro size
  induction size with
  | zero => intro read; rfl
  | succ size ih =>
    intro read
    rw [qcontentAux]
    simp [ih]

theorem qcontentAux_congr (queue : Nat → Option Nat) :
    ∀ size read₁ read₂, read₁ % QCAP = read₂ % QCAP →
      qcontentAux queue read₁ size = qcontentAux queue read₂ size := by
  intro size
  induction size with
  | zero => intro read₁ read₂ _; rfl
  | succ size ih =>
    intro read₁ read₂ h
    rw [qcontentAux, qcontentAux, h, ih (read₁ + 1) (read₂ + 1)
      (by simp only [QCAP, FPGA_DMA_MAX_INFLIGHT_TRANSACTIONS] at *; omega)]

theorem qcontentAux_append (queue : Nat → Option Nat) :
    ∀ size read, qcontentAux queue read (size + 1)
      = qcontentAux queue read size ++ [queue ((read + size) % QCAP)] := by
  intro size
  induction size with
  | zero =>
    intro read
    simp [qcontentAux]
  | succ size ih =>
    intro read
    rw [qcontentAux, ih (read + 1)]
    have harith : read + 1 + size = read + (size + 1) := by omega
    rw [harith, qcontentAux]
    simp

theorem qcontentAux_update (queue : Nat → Option Nat) (w : Nat) (v : Nat) :
    ∀ size read, (∀ k, k < size → (read + k) % QCAP ≠ w) →
      qcontentAux (fun j => if j = w then some v else queue j) read size
        = qcontentAux queue read size := by
  intro size
  induction size with
  | zero => intro read _; rfl
  | succ size ih =>
    intro read hk
    rw [qcontentAux, qcontentAux]
    have h0 : read % QCAP ≠ w := by
      have := hk 0 (by omega)
      simpa using this
    rw [if_neg h0, ih (read + 1) fun k hks => by
      have := hk (k + 1) (by omega)
      have harith : read + (k + 1) = read + 1 + k := by omega
      rwa [harith] at this]

theorem QInv_qinit : QInv qinit [] := by
  refine ⟨?_, ?_, ?_, ?_⟩
  · simp [qinit, QCAP, FPGA_DMA_MAX_INFLIGHT_TRANSACTIONS]
  · simp [qinit]
  · simp [qinit, qsize]
  · simp [qcontent, qinit, qsize, qcontentAux]

theorem QInv_submit (q : qinfo_t) (pend : List Nat) (v : Nat)
    (hinv : QInv q pend) (hfree : q.num_free ≠ 0) :
    QInv (submitQ q v).1 (pend ++ [v]) := by
  obtain ⟨hrd, hnf, hwr, hct⟩ := hinv
  have hszlt : qsize q < QCAP := by
    simp only [qsize, QCAP, FPGA_DMA_MAX_INFLIGHT_TRANSACTIONS] at *
    omega
  rw [submitQ, if_neg hfree]
  unfold QInv
  dsimp only
  refine ⟨hrd, by omega, ?_, ?_⟩
  · simp only [qsize] at *
    rw [hwr]
    simp only [QCAP, FPGA_DMA_MAX_INFLIGHT_TRANSACTIONS] at *
    omega
  · rw [qcontent]
    dsimp only
    simp only [qsize] at *
    have hsz1 : QCAP - (q.num_free - 1) = (QCAP - q.num_free) + 1 := by omega
    rw [hsz1, qcontentAux_append]
    have hnoalias : ∀ k, k < QCAP - q.num_free →
        (q.read_index + k) % QCAP ≠ q.write_index := by
      intro k hks
      rw [hwr]
      simp only [QCAP, FPGA_DMA_MAX_INFLIGHT_TRANSACTIONS] at *
      omega
    rw [qcontentAux_update q.queue q.write_index v (QCAP - q.num_free)
      q.read_index hnoalias]
    rw [qcontent] at hct
    simp only [qsize] at hct
    rw [hwr.symm, hct]
    simp

theorem QInv_dequeue (q : qinfo_t) (p : Nat) (pend : List Nat)
    (hinv : QInv q (p :: pend)) :
    qsize q ≠ 0 ∧ (dequeueQ q).2 = some p ∧ QInv (dequeueQ q).1 pend := by
  obtain ⟨hrd, hnf, hwr, hct⟩ := hinv
  have hlen : qsize q = pend.length + 1 := by
    have hl := qcontentAux_length q.queue (qsize q) q.read_index
    rw [qcontent] at hct
    rw [hct] at hl
    simpa using hl.symm
  rw [qcontent, hlen, qcontentAux, Nat.mod_eq_of_lt hrd] at hct
  have hhead : q.queue q.read_index = some p := (List.cons.injEq _ _ _ _ ▸ hct).1
  have htail : qcontentAux q.queue (q.read_index + 1) pend.length = pend.map some :=
    (List.cons.injEq _ _ _ _ ▸ hct).2
  have hsz : qsize q ≠ 0 := by omega
  refine ⟨hsz, ?_, ?_⟩
  · rw [dequeueQ, if_neg hsz]
    exact hhead
  · rw [dequeueQ, if_neg hsz]
    unfold QInv
    dsimp only
    refine ⟨?_, ?_, ?_, ?_⟩
    · simp only [QCAP, FPGA_DMA_MAX_INFLIGHT_TRANSACTIONS] at *
      omega
    · simp only [qsize, QCAP, FPGA_DMA_MAX_INFLIGHT_TRANSACTIONS] at *
      omega
    · rw [hwr]
      simp only [qsize, QCAP, FPGA_DMA_MAX_INFLIGHT_TRANSACTIONS] at *
      omega
    · rw [qcontent]
      dsimp only
      have hsz1 : qsize q = QCAP - q.num_free := rfl
      have hsz2 : QCAP - (q.num_free + 1) = pend.length := by
        simp only [qsize] at hlen
        simp only [QCAP, FPGA_DMA_MAX_INFLIGHT_TRANSACTIONS] at *
        omega
      simp only [qsize]
      rw [hsz2]
      rw [qcontentAux_congr q.queue pend.length ((q.read_index + 1) % QCAP)
        (q.read_index + 1)
        (by simp only [QCAP, FPGA_DMA_MAX_INFLIGHT_TRANSACTIONS] at *; omega)]
      exact htail

theorem runQ_prefix : ∀ (ops : List QOp) (q : qinfo_t) (pend : List Nat),
    QInv q pend →
    ∃ rest, pend ++ (runQ q ops).2.1 = (runQ q ops).2.2 ++ rest := by
  intro ops
  induction ops with
  | nil =>
    intro q pend _
    exact ⟨pend, by simp [runQ]⟩
  | cons op ops ih =>
    intro q pend hinv
    cases op with
    | submit v =>
      by_cases hfree : q.num_free = 0
      · have hsub : submitQ q v = (q, false) := by rw [submitQ, if_pos hfree]
        obtain ⟨rest, h⟩ := ih q pend hinv
        refine ⟨rest, ?_⟩
        rw [runQ]
        simp only [hsub]
        simpa using h
      · obtain ⟨rest, h⟩ := ih (submitQ q v).1 (pend ++ [v]) (QInv_submit q pend v hinv hfree)
        refine ⟨rest, ?_⟩
        rw [runQ]
        have hacc : (submitQ q v).2 = true := by rw [submitQ, if_neg hfree]
        simp only [hacc, if_pos]
        rw [List.append_assoc] at h
        simpa using h
    | dequeue =>
      match pend, hinv with
      | [], hinv =>
        have hempty : qsize q = 0 := by
          obtain ⟨-, -, -, hct⟩ := hinv
          have := qcontentAux_length q.queue (qsize q) q.read_index
          rw [qcontent] at hct
          rw [hct] at this
          simpa using this.symm
        have hdeq : dequeueQ q = (q, none) := by rw [dequeueQ, if_pos hempty]
        obtain ⟨rest, h⟩ := ih q [] hinv
        refine ⟨rest, ?_⟩
        rw [runQ]
        simp only [hdeq]
        simpa using h
      | p :: pend, hinv =>
        obtain ⟨-, hdeq, hinv'⟩ := QInv_dequeue q p pend hinv
        obtain ⟨rest, h⟩ := ih (dequeueQ q).1 pend hinv'
        refine ⟨rest, ?_⟩
        rw [runQ]
        dsimp only
        rw [hdeq]
        simp only [Option.toList_some, List.cons_append, List.nil_append,
          List.singleton_append]
        rw [h]

/-- C3: draining the bounded circular request queue preserves submission
order: after any sequence of submit and (single-consumer) dequeue
operations starting from the empty queue, the dequeued — hence
completed — transfers are exactly a prefix, in order, of the transfers
accepted into the queue; so of two transfers submitted to one channel,
the earlier one always completes first.  (Distinct channels own distinct
queues, about which this asserts nothing.) -/
theorem C3_fifo_completion_order (ops : List QOp) :
    (runQ qinit ops).2.2
      = (runQ qinit ops).2.1.take (runQ qinit ops).2.2.length := by
  obtain ⟨rest, h⟩ := runQ_prefix ops qinit [] QInv_qinit
  simp only [List.nil_append] at h
  rw [h, List.take_left]

/-- C9 witness: the 6 MiB transfer needs 3 ≤ 2^16 descriptors, so its
sequence numbers increase strictly. -/
theorem C9_witness :
    (0 < xfer6MiB.len ∧ numDesc xfer6MiB.len ≤ 65536)
    ∧ ∀ i d d', (doDmaSplit cfg6MiB xfer6MiB).get? i = some d →
        (doDmaSplit cfg6MiB xfer6MiB).get? (i + 1) = some d' →
        d.seq_num < d'.seq_num :=
  ⟨⟨by decide, by decide⟩,
   C9_seq_monotonic_bounded cfg6MiB xfer6MiB (by decide) (by decide)⟩

end OpaeDma
